import Mathlib

/-!
Verification of the HEIF decode-and-color-normalize pipeline of tev's
`HeifImageLoader.cpp` (`canLoadFile`, `load` and its local lambdas
`decodeImage`, `findAppleMakerNote`, `resizeImage`).

The embedding is shallow: libheif / lcms / libexif results are modelled as
data carried by the input structures (a handle records whether each
collaborator call succeeds and what it yields), pixel arithmetic that the
claims inspect at binary32 precision is modelled by an explicit
round-to-nearest-even rounding function `fl32` over `ℚ`, and the remaining
pixel arithmetic (bilinear resampling, the colorimetric matrices) is modelled
in exact rational arithmetic.
-/

namespace HeifSpec

/-! ## Binary32 rounding over ℚ

`fl32 q` is the value of `q` rounded to IEEE binary32 (single precision) with
round-to-nearest, ties-to-even, represented exactly as a rational. The model
covers the normal range (no subnormals, no overflow), which contains every
value the embedded code produces in the claims below. -/

/-- Fuel-driven helper for `natLog2` (structural recursion on the fuel). -/
def natLog2Aux : Nat → Nat → Nat
  | 0, _ => 0
  | fuel + 1, n => if n ≤ 1 then 0 else natLog2Aux fuel (n / 2) + 1

/-- `⌊log₂ n⌋` for `n ≥ 1` (0 at 0), as a structurally recursive function. -/
def natLog2 (n : Nat) : Nat :=
  natLog2Aux n n

/-- `⌊log₂ q⌋` for a positive rational `q` (junk value `0` at `q ≤ 0`). -/
def ratLog2 (q : ℚ) : ℤ :=
  let n := q.num.toNat
  let d := q.den
  let a := natLog2 n
  let b := natLog2 d
  if n * 2 ^ b < d * 2 ^ a then (a : ℤ) - b - 1 else (a : ℤ) - b

/-- Round a rational to the nearest integer, ties to even. -/
def roundHalfEven (q : ℚ) : ℤ :=
  let fl : ℤ := ⌊q⌋
  let fr : ℚ := q - fl
  if fr < 1 / 2 then fl
  else if 1 / 2 < fr then fl + 1
  else if fl % 2 = 0 then fl else fl + 1

/-- Round a rational to IEEE binary32 (24-bit significand, round to nearest,
ties to even), ignoring subnormals and overflow. -/
def fl32 (q : ℚ) : ℚ :=
  if q = 0 then 0
  else
    let s : ℚ := if q < 0 then -1 else 1
    let e : ℤ := ratLog2 |q|
    let m : ℤ := roundHalfEven (|q| * (2 : ℚ) ^ (23 - e))
    s * (m : ℚ) * (2 : ℚ) ^ (e - 23)

/-! ## 4×4 matrices over ℚ

`HeifImageLoader.cpp` stores the NCLX color conversion in a 4×4 float matrix
(`resultData.toRec709`, an `Imath::M44f` product). We model such matrices with
exact rational entries. Imath uses the row-vector convention: a vector `v` is
transformed as `v * M`. -/

structure M44 where
  a00 : ℚ
  a01 : ℚ
  a02 : ℚ
  a03 : ℚ
  a10 : ℚ
  a11 : ℚ
  a12 : ℚ
  a13 : ℚ
  a20 : ℚ
  a21 : ℚ
  a22 : ℚ
  a23 : ℚ
  a30 : ℚ
  a31 : ℚ
  a32 : ℚ
  a33 : ℚ
  deriving DecidableEq, Repr

/-- The identity matrix; the default value of `Imath::M44f` and of
`ImageData::toRec709`. -/
def idM44 : M44 :=
  ⟨1, 0, 0, 0, 0, 1, 0, 0, 0, 0, 1, 0, 0, 0, 0, 1⟩

/-- Matrix product, `(A * B)[i][j] = Σₖ A[i][k] * B[k][j]` as in Imath. -/
def m44Mul (A B : M44) : M44 where
  a00 := A.a00 * B.a00 + A.a01 * B.a10 + A.a02 * B.a20 + A.a03 * B.a30
  a01 := A.a00 * B.a01 + A.a01 * B.a11 + A.a02 * B.a21 + A.a03 * B.a31
  a02 := A.a00 * B.a02 + A.a01 * B.a12 + A.a02 * B.a22 + A.a03 * B.a32
  a03 := A.a00 * B.a03 + A.a01 * B.a13 + A.a02 * B.a23 + A.a03 * B.a33
  a10 := A.a10 * B.a00 + A.a11 * B.a10 + A.a12 * B.a20 + A.a13 * B.a30
  a11 := A.a10 * B.a01 + A.a11 * B.a11 + A.a12 * B.a21 + A.a13 * B.a31
  a12 := A.a10 * B.a02 + A.a11 * B.a12 + A.a12 * B.a22 + A.a13 * B.a32
  a13 := A.a10 * B.a03 + A.a11 * B.a13 + A.a12 * B.a23 + A.a13 * B.a33
  a20 := A.a20 * B.a00 + A.a21 * B.a10 + A.a22 * B.a20 + A.a23 * B.a30
  a21 := A.a20 * B.a01 + A.a21 * B.a11 + A.a22 * B.a21 + A.a23 * B.a31
  a22 := A.a20 * B.a02 + A.a21 * B.a12 + A.a22 * B.a22 + A.a23 * B.a32
  a23 := A.a20 * B.a03 + A.a21 * B.a13 + A.a22 * B.a23 + A.a23 * B.a33
  a30 := A.a30 * B.a00 + A.a31 * B.a10 + A.a32 * B.a20 + A.a33 * B.a30
  a31 := A.a30 * B.a01 + A.a31 * B.a11 + A.a32 * B.a21 + A.a33 * B.a31
  a32 := A.a30 * B.a02 + A.a31 * B.a12 + A.a32 * B.a22 + A.a33 * B.a32
  a33 := A.a30 * B.a03 + A.a31 * B.a13 + A.a32 * B.a23 + A.a33 * B.a33

/-- Row-vector application `(x, y, z, 1) * M`, returning the first three
components (the matrices we build have no translation part). -/
def m44ApplyRow (v : ℚ × ℚ × ℚ) (M : M44) : ℚ × ℚ × ℚ :=
  (v.1 * M.a00 + v.2.1 * M.a10 + v.2.2 * M.a20 + M.a30,
   v.1 * M.a01 + v.2.1 * M.a11 + v.2.2 * M.a21 + M.a31,
   v.1 * M.a02 + v.2.1 * M.a12 + v.2.2 * M.a22 + M.a32)

/-! ## Colorimetry (OpenEXR `ImfChromaticities`)

`decodeImage` computes `Imf::RGBtoXYZ(chroma, 1) * Imf::XYZtoRGB(rec709, 1)`.
These are collaborator functions from OpenEXR; we reproduce their defining
formulas exactly over `ℚ` (`XYZtoRGB` is the matrix inverse of `RGBtoXYZ`,
which OpenEXR computes by Gauss-Jordan elimination; over `ℚ` we compute the
same inverse by the adjugate of the upper-left 3×3 block, since the fourth row
and column of `RGBtoXYZ` are those of the identity). -/

structure Chromaticities where
  redX : ℚ
  redY : ℚ
  greenX : ℚ
  greenY : ℚ
  blueX : ℚ
  blueY : ℚ
  whiteX : ℚ
  whiteY : ℚ
  deriving DecidableEq, Repr

/-- The default `Imf::Chromaticities`: Rec.709 primaries with D65 white. -/
def rec709Chroma : Chromaticities :=
  ⟨64 / 100, 33 / 100, 30 / 100, 60 / 100, 15 / 100, 6 / 100, 3127 / 10000, 3290 / 10000⟩

/-- OpenEXR `Imf::RGBtoXYZ (chroma, Y)`: the matrix taking RGB row vectors in
the given primaries to CIE XYZ, normalized so white has luminance `Y`. -/
def rgbToXYZ (c : Chromaticities) (Y : ℚ) : M44 :=
  let X := c.whiteX * Y / c.whiteY
  let Z := (1 - c.whiteX - c.whiteY) * Y / c.whiteY
  let d := c.redX * (c.blueY - c.greenY) + c.blueX * (c.greenY - c.redY) +
    c.greenX * (c.redY - c.blueY)
  let Sr := (X * (c.blueY - c.greenY) -
      c.greenX * (Y * (c.blueY - 1) + c.blueY * (X + Z)) +
      c.blueX * (Y * (c.greenY - 1) + c.greenY * (X + Z))) / d
  let Sg := (X * (c.redY - c.blueY) +
      c.redX * (Y * (c.blueY - 1) + c.blueY * (X + Z)) -
      c.blueX * (Y * (c.redY - 1) + c.redY * (X + Z))) / d
  let Sb := (X * (c.greenY - c.redY) -
      c.redX * (Y * (c.greenY - 1) + c.greenY * (X + Z)) +
      c.greenX * (Y * (c.redY - 1) + c.redY * (X + Z))) / d
  { a00 := Sr * c.redX, a01 := Sr * c.redY, a02 := Sr * (1 - c.redX - c.redY), a03 := 0
    a10 := Sg * c.greenX, a11 := Sg * c.greenY, a12 := Sg * (1 - c.greenX - c.greenY), a13 := 0
    a20 := Sb * c.blueX, a21 := Sb * c.blueY, a22 := Sb * (1 - c.blueX - c.blueY), a23 := 0
    a30 := 0, a31 := 0, a32 := 0, a33 := 1 }

/-- Exact inverse of a matrix whose fourth row and column are those of the
identity, via the adjugate of the upper-left 3×3 block. -/
def inv44Block (M : M44) : M44 :=
  let det := M.a00 * (M.a11 * M.a22 - M.a12 * M.a21) -
    M.a01 * (M.a10 * M.a22 - M.a12 * M.a20) +
    M.a02 * (M.a10 * M.a21 - M.a11 * M.a20)
  { a00 := (M.a11 * M.a22 - M.a12 * M.a21) / det
    a01 := (M.a02 * M.a21 - M.a01 * M.a22) / det
    a02 := (M.a01 * M.a12 - M.a02 * M.a11) / det
    a03 := 0
    a10 := (M.a12 * M.a20 - M.a10 * M.a22) / det
    a11 := (M.a00 * M.a22 - M.a02 * M.a20) / det
    a12 := (M.a02 * M.a10 - M.a00 * M.a12) / det
    a13 := 0
    a20 := (M.a10 * M.a21 - M.a11 * M.a20) / det
    a21 := (M.a01 * M.a20 - M.a00 * M.a21) / det
    a22 := (M.a00 * M.a11 - M.a01 * M.a10) / det
    a23 := 0
    a30 := 0, a31 := 0, a32 := 0, a33 := 1 }

/-- OpenEXR `Imf::XYZtoRGB (chroma, Y) = RGBtoXYZ (chroma, Y).inverse()`. -/
def xyzToRGB (c : Chromaticities) (Y : ℚ) : M44 :=
  inv44Block (rgbToXYZ c Y)

/-! ## Image data model -/

/-- One image channel: a name and a dense row-major buffer of samples
(binary32 floats in the C++ code, modelled as rationals). -/
structure Channel where
  name : String
  width : Nat
  height : Nat
  data : List ℚ
  deriving DecidableEq, Repr

/-- The fields of tev's `ImageData` that `HeifImageLoader` writes: the channel
list, the premultiplied-alpha flag, and the `toRec709` color matrix
(the Image's transform to the working space, identity by default). -/
structure ImageData where
  channels : List Channel
  hasPremultipliedAlpha : Bool
  toRec709 : M44
  deriving DecidableEq, Repr

/-- Modelled from the spec: `makeNChannels` is tev code outside the sample
(`Image.h`). Per the spec it produces N float Channels of identical size,
named with the caller's channel-name prefix; buffers start zeroed. -/
def makeNChannels (numChannels : Nat) (size : Nat × Nat) (pfx : String) : List Channel :=
  (List.range numChannels).map fun c =>
    { name := pfx ++ (["R", "G", "B", "A"].getD c "")
      width := size.1
      height := size.2
      data := List.replicate (size.1 * size.2) 0 }

/-! ## The decoded libheif handle

All collaborator calls (`libheif`, `lcms`) are modelled by data recorded on
the handle: whether the call succeeds and what it returns. -/

/-- The result of a successful `heif_decode_image`: the bit depth reported by
`heif_image_get_bits_per_pixel_range` and the interleaved sample plane
returned by `heif_image_get_plane_readonly` (`none` models a null pointer).
The plane is a list of rows; each row lists the interleaved 16-bit samples. -/
structure DecodedImg where
  bitsPerPixel : Nat
  plane : Option (List (List Nat))

/-- An NCLX color profile: the primaries enum (`color_primaries`; value 1 is
`heif_color_primaries_ITU_R_BT_709_5`) and the primary/white chromaticities. -/
structure Nclx where
  primariesTag : Nat
  redX : ℚ
  redY : ℚ
  greenX : ℚ
  greenY : ℚ
  blueX : ℚ
  blueY : ℚ
  whiteX : ℚ
  whiteY : ℚ
  deriving DecidableEq, Repr

/-- A libheif image handle together with the outcomes of the collaborator
calls `decodeImage` makes on it. `cmsTransform` is the outcome of the whole
`getCmsTransform` chain (raw ICC profile present, readable, both profiles and
the transform created): `some t` carries the lcms transform as a function from
one row of interleaved normalized samples to one row of interleaved RGBA
samples. `nclx` is the NCLX profile if `heif_image_handle_get_nclx_color_profile`
succeeds (all of its error cases lead to the same early return). -/
structure HeifHandle where
  width : Nat
  height : Nat
  hasAlpha : Bool
  premultiplied : Bool
  decoded : Option DecodedImg
  cmsTransform : Option (List ℚ → List ℚ)
  nclx : Option Nclx

/-- The `Imf::Chromaticities` that `decodeImage` builds from an NCLX profile. -/
def chromaOfNclx (n : Nclx) : Chromaticities :=
  ⟨n.redX, n.redY, n.greenX, n.greenY, n.blueX, n.blueY, n.whiteX, n.whiteY⟩

/-- Observable resource events of `decodeImage`, in program order:
the `heif_decode_image` call, the `heif_image_get_plane_readonly` raw-plane
extraction, and the `makeNChannels` pixel-buffer allocation. -/
inductive Event where
  | decodeCall
  | getPlane
  | allocChannels
  deriving DecidableEq, Repr

/-- One interleaved raw sample: `typedData[idx]` in row `y` of the plane. -/
def planeSample (plane : List (List Nat)) (y idx : Nat) : Nat :=
  (plane.getD y []).getD idx 0

/-- `channelScale = 1.0f / float((1 << bitsPerPixel) - 1)` in binary32 (the
int-to-float conversion of `(1 << bitsPerPixel) - 1` is exact for the bit
depths a 16-bit interleaved plane can carry). -/
def channelScale (bitsPerPixel : Nat) : ℚ :=
  fl32 (1 / ((2 : ℚ) ^ bitsPerPixel - 1))

/-- The bit-depth normalization `decodeImage` applies to each raw sample on
both color paths: `(float)value * channelScale`, computed in binary32. -/
def normalizeSample (bitsPerPixel : Nat) (v : ℚ) : ℚ :=
  fl32 (v * channelScale bitsPerPixel)

/-- Row `y` of the `src` scratch buffer of the ICC path: every interleaved
sample of the row, normalized. -/
def iccSrcRow (plane : List (List Nat)) (w nc bpp y : Nat) : List ℚ :=
  (List.range (w * nc)).map fun x => normalizeSample bpp (planeSample plane y x)

/-- Channel `c` produced by the ICC path: `cmsDoTransform` maps each `src` row
to a row of interleaved RGBA floats (the code writes them through the channels'
shared interleaved buffer; planar view taken here). -/
def iccChannelData (t : List ℚ → List ℚ) (plane : List (List Nat))
    (w h nc bpp c : Nat) : List ℚ :=
  let dstRows := (List.range h).map fun y => t (iccSrcRow plane w nc bpp y)
  (List.range (h * w)).map fun i => (dstRows.getD (i / w) []).getD ((i % w) * 4 + c) 0

/-- Channel `c` produced by the non-ICC pixel loop: alpha (`c = 3`) is the
normalized sample, color channels additionally pass through `toLinear`
(a collaborator from tev's `Common.h`, passed here as the parameter
`toLin`). -/
def nclxChannelData (toLin : ℚ → ℚ) (plane : List (List Nat))
    (w h nc bpp c : Nat) : List ℚ :=
  (List.range (h * w)).map fun i =>
    let v : ℚ := (planeSample plane (i / w) ((i % w) * nc + c) : Nat)
    if c = 3 then normalizeSample bpp v else toLin (normalizeSample bpp v)

/-- The `toRec709` matrix attached on the NCLX path: identity when no NCLX
profile is available or when the primaries enum is already BT.709, and
`RGBtoXYZ(chroma, 1) * XYZtoRGB(rec709, 1)` otherwise. -/
def nclxMatrix (nclx : Option Nclx) : M44 :=
  match nclx with
  | none => idM44
  | some n =>
    if n.primariesTag ≠ 1 then
      m44Mul (rgbToXYZ (chromaOfNclx n) 1) (xyzToRGB rec709Chroma 1)
    else idM44

/-- The `decodeImage` lambda of `HeifImageLoader::load`: decode one handle to
an `ImageData`, choosing the ICC path when the whole `getCmsTransform` chain
succeeds and the `toLinear`-plus-NCLX path otherwise. Returns the result (an
exception is an `Except.error` carrying the `invalid_argument` message) paired
with the resource events that occurred, in order. -/
def decodeImage (toLin : ℚ → ℚ) (h : HeifHandle) (pfx : String) :
    Except String ImageData × List Event :=
  let numChannels := if h.hasAlpha then 4 else 3
  let premult := h.hasAlpha && h.premultiplied
  if h.width = 0 ∨ h.height = 0 then
    (.error "Image has zero pixels.", [])
  else
    match h.decoded with
    | none => (.error "Failed to decode image.", [.decodeCall])
    | some img =>
      match img.plane with
      | none => (.error "Faild to get image data.", [.decodeCall, .getPlane])
      | some plane =>
        let chans := makeNChannels numChannels (h.width, h.height) pfx
        let evs : List Event := [.decodeCall, .getPlane, .allocChannels]
        match h.cmsTransform with
        | some t =>
          (.ok { channels := chans.mapIdx fun c ch =>
                  { ch with
                    data := iccChannelData t plane h.width h.height numChannels
                      img.bitsPerPixel c }
                 hasPremultipliedAlpha := false
                 toRec709 := idM44 }, evs)
        | none =>
          (.ok { channels := chans.mapIdx fun c ch =>
                  { ch with
                    data := nclxChannelData toLin plane h.width h.height numChannels
                      img.bitsPerPixel c }
                 hasPremultipliedAlpha := premult
                 toRec709 := nclxMatrix h.nclx }, evs)

/-! ## Auxiliary-layer resampling (`resizeImage`) -/

/-- Image size as read by `resizeImage`: `resultData.channels.front().size()`
(junk `(0, 0)` when the channel list is empty, where the C++ `front()` would
be undefined). -/
def imageSize (d : ImageData) : Nat × Nat :=
  match d.channels with
  | [] => (0, 0)
  | ch :: _ => (ch.width, ch.height)

/-- The value `resizeImage` computes for destination pixel `(dstX, dstY)` of
one channel: the source coordinate is `(dst + 0.5) * scale - 0.5`; the
neighbor indices (not the coordinate itself) are clamped into
`[0, srcSize - 1]`; the weights come from the unclamped coordinate. Modelled
in exact rational arithmetic in place of binary32. -/
def bilinearSample (src : List ℚ) (w h tw th : Nat) (dstX dstY : Nat) : ℚ :=
  let scaleX : ℚ := (w : ℚ) / tw
  let scaleY : ℚ := (h : ℚ) / th
  let srcX : ℚ := ((dstX : ℚ) + 1 / 2) * scaleX - 1 / 2
  let srcY : ℚ := ((dstY : ℚ) + 1 / 2) * scaleY - 1 / 2
  let x0 : ℤ := max ⌊srcX⌋ 0
  let y0 : ℤ := max ⌊srcY⌋ 0
  let x1 : ℤ := min (x0 + 1) ((w : ℤ) - 1)
  let y1 : ℤ := min (y0 + 1) ((h : ℤ) - 1)
  let wx1 : ℚ := srcX - (x0 : ℚ)
  let wy1 : ℚ := srcY - (y0 : ℚ)
  let wx0 : ℚ := 1 - wx1
  let wy0 : ℚ := 1 - wy1
  let p00 := src.getD (y0 * w + x0).toNat 0
  let p01 := src.getD (y0 * w + x1).toNat 0
  let p10 := src.getD (y1 * w + x0).toNat 0
  let p11 := src.getD (y1 * w + x1).toNat 0
  wy0 * (wx0 * p00 + wx1 * p01) + wy1 * (wx0 * p10 + wx1 * p11)

/-- The `resizeImage` lambda of `HeifImageLoader::load`: identity (no new
buffers) when source and target sizes already agree, otherwise a fresh
`makeNChannels` buffer filled by bilinear resampling. The fresh `ImageData`
is default-constructed, so its `toRec709` is the identity regardless of the
input's. -/
def resizeImage (d : ImageData) (target : Nat × Nat) (pfx : String) :
    ImageData × List Event :=
  let size := imageSize d
  if size = target then (d, [])
  else
    let numChannels := d.channels.length
    let newChans := makeNChannels numChannels target pfx
    ({ channels := newChans.mapIdx fun c ch =>
        { ch with
          data := (List.range (target.2 * target.1)).map fun i =>
            bilinearSample ((d.channels.getD c ⟨"", 0, 0, []⟩).data)
              size.1 size.2 target.1 target.2 (i % target.1) (i / target.1) }
       hasPremultipliedAlpha := d.hasPremultipliedAlpha
       toRec709 := idM44 }, [.allocChannels])

/-- The per-pixel resampling rule as the specification words it: the source
sampling coordinate itself is clamped into `[0, srcSize - 1]` before the
neighbor indices and interpolation weights are derived from it (so the
weights always lie in `[0, 1]`). Stated for comparison with
`bilinearSample`, which is what the code computes. -/
def bilinearSampleSpec (src : List ℚ) (w h tw th : Nat) (dstX dstY : Nat) : ℚ :=
  let scaleX : ℚ := (w : ℚ) / tw
  let scaleY : ℚ := (h : ℚ) / th
  let srcX : ℚ := min (max (((dstX : ℚ) + 1 / 2) * scaleX - 1 / 2) 0) ((w : ℚ) - 1)
  let srcY : ℚ := min (max (((dstY : ℚ) + 1 / 2) * scaleY - 1 / 2) 0) ((h : ℚ) - 1)
  let x0 : ℤ := max ⌊srcX⌋ 0
  let y0 : ℤ := max ⌊srcY⌋ 0
  let x1 : ℤ := min (x0 + 1) ((w : ℤ) - 1)
  let y1 : ℤ := min (y0 + 1) ((h : ℤ) - 1)
  let wx1 : ℚ := srcX - (x0 : ℚ)
  let wy1 : ℚ := srcY - (y0 : ℚ)
  let wx0 : ℚ := 1 - wx1
  let wy0 : ℚ := 1 - wy1
  let p00 := src.getD (y0 * w + x0).toNat 0
  let p01 := src.getD (y0 * w + x1).toNat 0
  let p10 := src.getD (y1 * w + x0).toNat 0
  let p11 := src.getD (y1 * w + x1).toNat 0
  wy0 * (wx0 * p00 + wx1 * p01) + wy1 * (wx0 * p10 + wx1 * p11)

/-- The source sampling coordinate of `resizeImage`: `(dst + 0.5) * scale - 0.5`
with `scale = srcSize / tgtSize`. -/
def srcCoord (srcSize tgtSize dst : Nat) : ℚ :=
  ((dst : ℚ) + 1 / 2) * ((srcSize : ℚ) / (tgtSize : ℚ)) - 1 / 2

/-- The lower neighbor index of `resizeImage`: `max(floor(srcCoord), 0)`. -/
def nbrIdx0 (srcSize tgtSize dst : Nat) : ℤ :=
  max ⌊srcCoord srcSize tgtSize dst⌋ 0

/-- The upper neighbor index of `resizeImage`: `min(nbrIdx0 + 1, srcSize - 1)`. -/
def nbrIdx1 (srcSize tgtSize dst : Nat) : ℤ :=
  min (nbrIdx0 srcSize tgtSize dst + 1) ((srcSize : ℤ) - 1)

/-- The per-pixel resampling rule the code actually implements, written with
the named coordinate `srcCoord` and clamped neighbor indices `nbrIdx0` and
`nbrIdx1`: the interpolation weights are taken from the unclamped source
coordinate (each axis's two weights sum to one but are not confined to
`[0, 1]` at the low edge), and only the neighbor indices are clamped. -/
def bilinearDescribed (src : List ℚ) (w h tw th dstX dstY : Nat) : ℚ :=
  let wx1 : ℚ := srcCoord w tw dstX - (nbrIdx0 w tw dstX : ℚ)
  let wy1 : ℚ := srcCoord h th dstY - (nbrIdx0 h th dstY : ℚ)
  let x0 := nbrIdx0 w tw dstX
  let x1 := nbrIdx1 w tw dstX
  let y0 := nbrIdx0 h th dstY
  let y1 := nbrIdx1 h th dstY
  (1 - wy1) * ((1 - wx1) * src.getD (y0 * w + x0).toNat 0 + wx1 * src.getD (y0 * w + x1).toNat 0) +
    wy1 * ((1 - wx1) * src.getD (y1 * w + x0).toNat 0 + wx1 * src.getD (y1 * w + x1).toNat 0)

/-! ## EXIF metadata and `findAppleMakerNote` -/

/-- The maker-note entry of a decoded EXIF block, as seen through libexif:
`none` models `exif_data_get_entry` returning a null pointer (tag absent);
`isApple` records the collaborator verdict of `isAppleMakernote`. -/
structure MakerNote where
  isApple : Bool
  deriving DecidableEq, Repr

/-- A successfully parsed EXIF block (`exif_data_new_from_data` non-null). -/
structure ExifParsed where
  makerNote : Option MakerNote
  deriving DecidableEq, Repr

/-- One EXIF metadata block of the primary handle: its reported size, whether
`heif_image_handle_get_metadata` succeeds, and the libexif parse outcome. -/
structure ExifBlock where
  size : Nat
  readOk : Bool
  exifDecode : Option ExifParsed
  deriving DecidableEq, Repr

/-- Outcome of `findAppleMakerNote`: an Apple maker note was found, none was
found, or the code dereferenced the null `ExifEntry*` that
`exif_data_get_entry` returns when the block has no maker-note tag (the call
`isAppleMakernote(makerNote->data, makerNote->size)` performs no null
check). -/
inductive FindMN where
  | crash
  | found
  | notFound
  deriving DecidableEq, Repr

/-- The block loop of `findAppleMakerNote`: blocks whose size is at most 4,
whose bytes cannot be read, or whose EXIF data does not parse are skipped
with a warning; a parsed block is probed for its maker-note entry. -/
def findMNLoop : List ExifBlock → FindMN
  | [] => .notFound
  | b :: rest =>
    if b.size ≤ 4 then findMNLoop rest
    else if ¬b.readOk then findMNLoop rest
    else
      match b.exifDecode with
      | none => findMNLoop rest
      | some e =>
        match e.makerNote with
        | none => .crash
        | some mn => if mn.isApple then .found else findMNLoop rest

/-- The `findAppleMakerNote` lambda of `HeifImageLoader::load` (the
`numMetadataBlocks <= 0` early return is the empty-list case of the loop). -/
def findAppleMakerNote (blocks : List ExifBlock) : FindMN :=
  findMNLoop blocks

/-! ## The auxiliary-image loop of `load` -/

/-- One auxiliary image of the container: whether
`heif_image_handle_get_auxiliary_image_handle` and
`heif_image_handle_get_auxiliary_type` succeed, the type tag (`none` models a
null `auxType` string), and the image handle itself. -/
structure AuxEntry where
  handleOk : Bool
  typeOk : Bool
  auxType : Option String
  handle : HeifHandle

/-- A readable HEIF container: the primary handle, the auxiliary images, and
the primary handle's EXIF metadata blocks. -/
structure HeifFile where
  primary : HeifHandle
  auxEntries : List AuxEntry
  exifBlocks : List ExifBlock

/-- `s.find(t) != std::string::npos`: `t` occurs as a contiguous substring. -/
def containsSub (s t : String) : Bool :=
  decide (List.IsInfix t.toList s.toList)

/-- Modelled from the spec: `matchesFuzzy` is tev code outside the sample.
The spec describes selector matching as a case-sensitive fuzzy/substring
match against the normalized layer name, modelled as substring containment
(the empty selector matches every name). -/
def matchesFuzzy (name selector : String) : Bool :=
  containsSub name selector

/-- The normalized auxiliary layer name: the type tag (or, for a null type
string, the auxiliary-image count `num_aux`) with `"."` appended and every
`':'` replaced by `'.'`. -/
def normalizeAuxName (auxType : Option String) (numAux : Nat) : String :=
  let base :=
    match auxType with
    | some t => t ++ "."
    | none => toString numAux ++ "."
  String.mk (base.toList.map fun ch => if ch = ':' then '.' else ch)

/-- Outcome of `HeifImageLoader::load`: success (with the number of
`applyAppleGainMap` invocations), a thrown `invalid_argument`, or undefined
behavior reached (the null dereference of `findAppleMakerNote`). -/
inductive LoadOutcome where
  | ok (main : ImageData) (fusions : Nat)
  | err (msg : String)
  | crash
  deriving DecidableEq, Repr

/-- The auxiliary-image loop of `load`. Handle- and type-acquisition failures
skip the entry with a warning; selector-mismatching names are skipped; a
decode exception propagates (there is no try/catch around the loop body);
decoded layers are resized to the primary resolution and their channels
appended to the primary image. For a name containing both `"apple"` and
`"hdrgainmap"`, `findAppleMakerNote` runs and, when it yields a maker note,
`applyAppleGainMap` fuses the layer into the primary image
(`applyAppleGainMap` is a collaborator from `GainMap.h` outside the sample;
its pixel effect is not modelled, only the invocation is counted). -/
def processAux (toLin : ℚ → ℚ) (blocks : List ExifBlock) (selector : String)
    (numAux : Nat) : List AuxEntry → ImageData → Nat → LoadOutcome
  | [], main, fus => .ok main fus
  | e :: rest, main, fus =>
    if ¬e.handleOk then processAux toLin blocks selector numAux rest main fus
    else if ¬e.typeOk then processAux toLin blocks selector numAux rest main fus
    else
      let auxLayerName := normalizeAuxName e.auxType numAux
      if ¬matchesFuzzy auxLayerName selector then
        processAux toLin blocks selector numAux rest main fus
      else
        match (decodeImage toLin e.handle auxLayerName).1 with
        | .error msg => .err msg
        | .ok auxImg =>
          let auxImg2 := (resizeImage auxImg (imageSize main) auxLayerName).1
          let main2 := { main with channels := main.channels ++ auxImg2.channels }
          if containsSub auxLayerName "apple" && containsSub auxLayerName "hdrgainmap" then
            match findAppleMakerNote blocks with
            | .crash => .crash
            | .found => processAux toLin blocks selector numAux rest main2 (fus + 1)
            | .notFound => processAux toLin blocks selector numAux rest main2 fus
          else processAux toLin blocks selector numAux rest main2 fus

/-- `HeifImageLoader::load` after the container has been read: decode the
primary image, then run the auxiliary loop. -/
def loadModel (toLin : ℚ → ℚ) (f : HeifFile) (selector : String) : LoadOutcome :=
  match (decodeImage toLin f.primary "").1 with
  | .error msg => .err msg
  | .ok main =>
    processAux toLin f.exifBlocks selector f.auxEntries.length f.auxEntries main 0

/-! ## Input streams and `canLoadFile` -/

/-- A `std::istream` over an in-memory byte sequence: contents, read
position, and the `failbit`/`eofbit` state flags. -/
structure IStream where
  content : List Nat
  pos : Nat
  failbit : Bool
  eofbit : Bool
  deriving DecidableEq, Repr

/-- `istream::read(buf, n)`: a stream with `failbit` set refuses to extract
(`gcount() = 0`); otherwise up to `n` bytes are consumed, and a short read
sets both `eofbit` and `failbit`. Returns `gcount()` with the new state. -/
def istreamRead (s : IStream) (n : Nat) : Nat × IStream :=
  if s.failbit then (0, s)
  else
    let avail := s.content.length - s.pos
    if n ≤ avail then (n, { s with pos := s.pos + n })
    else (avail, { s with pos := s.content.length, failbit := true, eofbit := true })

/-- `istream::clear()`: reset the state flags to good. -/
def istreamClear (s : IStream) : IStream :=
  { s with failbit := false, eofbit := false }

/-- `istream::seekg(p)`: fails (state unchanged) when `failbit` is set;
otherwise clears `eofbit` and moves the read position. -/
def istreamSeekg (s : IStream) (p : Nat) : IStream :=
  if s.failbit then s else { s with eofbit := false, pos := p }

/-- `HeifImageLoader::canLoadFile`: read the 12-byte header, remember whether
that failed (`!iStream || iStream.gcount() != 12`), then unconditionally
`clear()` and `seekg(0)` before returning. `check` models
`heif_check_filetype`. -/
def canLoadFile (check : List Nat → Bool) (s : IStream) : Bool × IStream :=
  let r := istreamRead s 12
  let failed := r.2.failbit || r.1 != 12
  let s2 := istreamSeekg (istreamClear r.2) 0
  if failed then (false, s2)
  else (check ((s.content.drop s.pos).take 12), s2)

/-! ## Derived notions used to state the claims -/

instance {α β : Type} [DecidableEq α] [DecidableEq β] : DecidableEq (Except α β) := fun a b =>
  match a, b with
  | .ok x, .ok y => if h : x = y then .isTrue (by rw [h]) else .isFalse (by simp [h])
  | .error x, .error y => if h : x = y then .isTrue (by rw [h]) else .isFalse (by simp [h])
  | .ok _, .error _ => .isFalse (by simp)
  | .error _, .ok _ => .isFalse (by simp)

/-- Convert a chromaticity `(x, y)` to the XYZ triple `(x/y, 1, (1-x-y)/y)`
of a color with unit luminance at that chromaticity. -/
def xyToXYZ (x y : ℚ) : ℚ × ℚ × ℚ :=
  (x / y, 1, (1 - x - y) / y)

/-- The xy chromaticity of an XYZ triple. -/
def chromaticityOf (t : ℚ × ℚ × ℚ) : ℚ × ℚ :=
  (t.1 / (t.1 + t.2.1 + t.2.2), t.2.1 / (t.1 + t.2.1 + t.2.2))

/-- Componentwise closeness of chromaticity pairs within tolerance `tol`. -/
def closeTo (p q : ℚ × ℚ) (tol : ℚ) : Prop :=
  |p.1 - q.1| ≤ tol ∧ |p.2 - q.2| ≤ tol

instance (p q : ℚ × ℚ) (tol : ℚ) : Decidable (closeTo p q tol) :=
  inferInstanceAs (Decidable (_ ∧ _))

/-- The second half of the spec's NCLX sentence, read literally: applying the
attached matrix to the three embedded primary chromaticities, converted to
XYZ, yields the Rec.709 reference chromaticities within tolerance `tol`. -/
def nclxGlossHolds (M : M44) (n : Nclx) (tol : ℚ) : Prop :=
  closeTo (chromaticityOf (m44ApplyRow (xyToXYZ n.redX n.redY) M))
    (rec709Chroma.redX, rec709Chroma.redY) tol ∧
  closeTo (chromaticityOf (m44ApplyRow (xyToXYZ n.greenX n.greenY) M))
    (rec709Chroma.greenX, rec709Chroma.greenY) tol ∧
  closeTo (chromaticityOf (m44ApplyRow (xyToXYZ n.blueX n.blueY) M))
    (rec709Chroma.blueX, rec709Chroma.blueY) tol

instance (M : M44) (n : Nclx) (tol : ℚ) : Decidable (nclxGlossHolds M n tol) :=
  inferInstanceAs (Decidable (_ ∧ _ ∧ _))

/-- The condition the spec's fusion sentence puts on the right of its
if-and-only-if: some auxiliary layer's normalized name contains both the
vendor marker and the gain-map marker, and Apple maker-note metadata is
successfully extracted from the primary image's EXIF blocks. -/
def fusionClaimRHS (f : HeifFile) : Prop :=
  (∃ e ∈ f.auxEntries,
    containsSub (normalizeAuxName e.auxType f.auxEntries.length) "apple" = true ∧
    containsSub (normalizeAuxName e.auxType f.auxEntries.length) "hdrgainmap" = true) ∧
  findAppleMakerNote f.exifBlocks = .found

instance (f : HeifFile) : Decidable (fusionClaimRHS f) :=
  inferInstanceAs (Decidable (_ ∧ _))

/-- Number of gain-map fusions of a successful load. -/
def fusionsOf : LoadOutcome → Option Nat
  | .ok _ fus => some fus
  | _ => none

/-- Number of channels of the image of a successful load. -/
def channelsOf : LoadOutcome → Option Nat
  | .ok m _ => some m.channels.length
  | _ => none

/-- The per-entry condition under which the auxiliary loop actually invokes
`applyAppleGainMap`: the handle and type are obtained, the normalized name
matches the channel selector and contains both markers, and the maker-note
search succeeds. -/
def fusionCond (blocks : List ExifBlock) (selector : String) (numAux : Nat)
    (e : AuxEntry) : Bool :=
  e.handleOk && e.typeOk &&
    matchesFuzzy (normalizeAuxName e.auxType numAux) selector &&
    containsSub (normalizeAuxName e.auxType numAux) "apple" &&
    containsSub (normalizeAuxName e.auxType numAux) "hdrgainmap" &&
    decide (findAppleMakerNote blocks = .found)

/-! ## Concrete fixtures -/

/-- A well-formed 1×1 handle: no alpha, 8-bit, zero raw plane, no ICC, no
NCLX. -/
def primaryHandle : HeifHandle :=
  { width := 1, height := 1, hasAlpha := false, premultiplied := false,
    decoded := some { bitsPerPixel := 8, plane := some [[0, 0, 0]] },
    cmsTransform := none, nclx := none }

/-- A handle with zero width. -/
def hZero : HeifHandle :=
  { primaryHandle with width := 0, height := 5 }

/-- An lcms row transform that returns the row unchanged. -/
def idRowT : List ℚ → List ℚ := fun r => r

/-- A 1×1 premultiplied RGBA handle whose ICC transform chain succeeds. -/
def hIcc : HeifHandle :=
  { width := 1, height := 1, hasAlpha := true, premultiplied := true,
    decoded := some { bitsPerPixel := 16, plane := some [[65535, 0, 0, 65535]] },
    cmsTransform := some idRowT, nclx := none }

/-- The image `decodeImage` produces for `hIcc` (premultiplied-alpha flag
cleared by the ICC path). -/
def hIccResult : ImageData :=
  { channels := [⟨"R", 1, 1, [1]⟩, ⟨"G", 1, 1, [0]⟩, ⟨"B", 1, 1, [0]⟩, ⟨"A", 1, 1, [1]⟩],
    hasPremultipliedAlpha := false, toRec709 := idM44 }

/-- An NCLX profile carrying the BT.2020 primaries (enum value 9) with D65
white. -/
def bt2020Nclx : Nclx :=
  ⟨9, 708 / 1000, 292 / 1000, 170 / 1000, 797 / 1000, 131 / 1000, 46 / 1000,
    3127 / 10000, 3290 / 10000⟩

/-- The primary handle with a BT.2020 NCLX profile attached. -/
def hBt2020 : HeifHandle :=
  { primaryHandle with nclx := some bt2020Nclx }

/-- The image `decodeImage` produces for `hBt2020`. -/
def bt2020Result : ImageData :=
  { channels := [⟨"R", 1, 1, [0]⟩, ⟨"G", 1, 1, [0]⟩, ⟨"B", 1, 1, [0]⟩],
    hasPremultipliedAlpha := false, toRec709 := nclxMatrix (some bt2020Nclx) }

/-- An auxiliary entry tagged as an Apple HDR gain map. -/
def gmEntry : AuxEntry :=
  ⟨true, true, some "urn:com:apple:hdrgainmap", primaryHandle⟩

/-- An EXIF block that parses and carries an Apple maker note. -/
def appleBlock : ExifBlock :=
  ⟨10, true, some ⟨some ⟨true⟩⟩⟩

/-- An EXIF block that parses but has no maker-note entry at all. -/
def noMNBlock : ExifBlock :=
  ⟨10, true, some ⟨none⟩⟩

/-- A file with an Apple gain-map layer and extractable maker-note metadata. -/
def wFile : HeifFile :=
  ⟨primaryHandle, [gmEntry], [appleBlock]⟩

/-- The image `loadModel` produces for `wFile` with the empty selector. -/
def wMain : ImageData :=
  { channels :=
      [⟨"R", 1, 1, [0]⟩, ⟨"G", 1, 1, [0]⟩, ⟨"B", 1, 1, [0]⟩,
       ⟨"urn.com.apple.hdrgainmap.R", 1, 1, [0]⟩,
       ⟨"urn.com.apple.hdrgainmap.G", 1, 1, [0]⟩,
       ⟨"urn.com.apple.hdrgainmap.B", 1, 1, [0]⟩],
    hasPremultipliedAlpha := false, toRec709 := idM44 }

/-- A file whose only auxiliary layer has zero area. -/
def zFile : HeifFile :=
  ⟨primaryHandle, [⟨true, true, some "depthmap", { primaryHandle with width := 0 }⟩], []⟩

/-- A file with an Apple gain-map layer whose only EXIF block parses but has
no maker-note entry. -/
def mFile : HeifFile :=
  ⟨primaryHandle, [gmEntry], [noMNBlock]⟩

/-- An auxiliary entry whose handle acquisition fails. -/
def badEntry : AuxEntry :=
  ⟨false, true, some "depthmap", primaryHandle⟩

/-- A single-channel 2×1 source image with samples `[0, 1]`. -/
def exAux : ImageData :=
  { channels := [⟨"aux.R", 2, 1, [0, 1]⟩], hasPremultipliedAlpha := false, toRec709 := idM44 }

/-- A single-channel 1×1 image. -/
def d9 : ImageData :=
  { channels := [⟨"L", 1, 1, [5]⟩], hasPremultipliedAlpha := false, toRec709 := idM44 }

/-! ## Helper lemmas

Batteries marks the `Rat` arithmetic operations `@[irreducible]`; the local
attribute below restores default reducibility within this section so that
`decide` can evaluate the model on concrete inputs. -/

section ClaimProofs

attribute [local semireducible] Rat.mul Rat.add Rat.sub Rat.inv

theorem m44Mul_id (A : M44) : m44Mul A idM44 = A := by
  cases A
  simp [m44Mul, idM44]

theorem m44Mul_assoc (A B C : M44) : m44Mul (m44Mul A B) C = m44Mul A (m44Mul B C) := by
  cases A; cases B; cases C
  simp only [m44Mul, M44.mk.injEq]
  and_intros <;> ring

/-- Over exact arithmetic, `XYZtoRGB(rec709) * RGBtoXYZ(rec709)` cancels. -/
theorem xyzToRGB_cancel_rec709 :
    m44Mul (xyzToRGB rec709Chroma 1) (rgbToXYZ rec709Chroma 1) = idM44 := by decide

/-- Over exact arithmetic, `RGBtoXYZ(rec709) * XYZtoRGB(rec709)` cancels. -/
theorem rgbToXYZ_cancel_rec709 :
    m44Mul (rgbToXYZ rec709Chroma 1) (xyzToRGB rec709Chroma 1) = idM44 := by decide

/-! ## Claim theorems -/

/-- C10: `canLoadFile` returns with the stream's error flags cleared and the
read position restored to offset 0, on the success outcome (file type
recognized or not) as well as on the failure outcome (fewer than 12 header
bytes readable, or a stream that starts out failed). -/
theorem canLoadFile_restores_stream (check : List Nat → Bool) (s : IStream) :
    (canLoadFile check s).2.failbit = false ∧ (canLoadFile check s).2.eofbit = false ∧
      (canLoadFile check s).2.pos = 0 := by
  simp only [canLoadFile]
  split <;> simp [istreamClear, istreamSeekg]

/-- C7: a handle with zero width or height makes `decodeImage` fail with the
decode error "Image has zero pixels." before the pixel-buffer allocation and
before the raw-plane extraction. -/
theorem decodeImage_zero_size (toLin : ℚ → ℚ) (h : HeifHandle) (pfx : String)
    (hz : h.width = 0 ∨ h.height = 0) :
    (decodeImage toLin h pfx).1 = .error "Image has zero pixels." ∧
      Event.allocChannels ∉ (decodeImage toLin h pfx).2 ∧
      Event.getPlane ∉ (decodeImage toLin h pfx).2 := by
  rcases hz with h0 | h0 <;> simp [decodeImage, h0]

/-- Witness for C7 at a concrete zero-width handle. -/
theorem decodeImage_zero_size_witness :
    (hZero.width = 0 ∨ hZero.height = 0) ∧
      ((decodeImage id hZero "").1 = .error "Image has zero pixels." ∧
        Event.allocChannels ∉ (decodeImage id hZero "").2 ∧
        Event.getPlane ∉ (decodeImage id hZero "").2) :=
  ⟨Or.inl rfl, decodeImage_zero_size id hZero "" (Or.inl rfl)⟩

/-- C9: when the target resolution equals the image's own resolution,
`resizeImage` returns the image unchanged bit-for-bit and performs no buffer
allocation. -/
theorem resizeImage_identity (d : ImageData) (t : Nat × Nat) (pfx : String)
    (hsz : imageSize d = t) :
    resizeImage d t pfx = (d, []) := by
  simp [resizeImage, hsz]

/-- Witness for C9 at a concrete 1×1 image. -/
theorem resizeImage_identity_witness :
    imageSize d9 = (1, 1) ∧ resizeImage d9 (1, 1) "p" = (d9, []) :=
  ⟨rfl, resizeImage_identity d9 (1, 1) "p" rfl⟩

/-- C8: for every plane bit depth from 1 to 16, the code's normalization
(binary32 multiplication by the reciprocal `channelScale`) maps the maximal
raw sample `2^B - 1` to exactly 1.0 and the zero sample to exactly 0.0. -/
theorem normalizeSample_endpoints (B : Nat) (hB : B ≤ 16) (hB1 : 1 ≤ B) :
    normalizeSample B ((2 : ℚ) ^ B - 1) = 1 ∧ normalizeSample B 0 = 0 := by
  have H : ∀ b : Nat, b ≤ 16 → 1 ≤ b →
      (normalizeSample b ((2 : ℚ) ^ b - 1) = 1 ∧ normalizeSample b 0 = 0) := by decide
  exact H B hB hB1

/-- C4: when the embedded-ICC-profile transform chain succeeds, the decoded
image's premultiplied-alpha flag is false, regardless of whether the
container marked the image as alpha-premultiplied. -/
theorem decodeImage_icc_clears_premul (toLin : ℚ → ℚ) (h : HeifHandle) (pfx : String)
    (t : List ℚ → List ℚ) (r : ImageData)
    (ht : h.cmsTransform = some t)
    (hok : (decodeImage toLin h pfx).1 = .ok r) :
    r.hasPremultipliedAlpha = false := by
  simp only [decodeImage] at hok
  split at hok
  · simp at hok
  · split at hok
    · simp at hok
    · split at hok
      · simp at hok
      · split at hok
        · simp only [Except.ok.injEq] at hok
          subst hok
          rfl
        · rename_i heq
          rw [ht] at heq
          simp at heq

/-- Witness for C4: a 1×1 handle marked alpha-premultiplied whose ICC chain
succeeds decodes with the flag cleared. -/
theorem decodeImage_icc_clears_premul_witness :
    hIcc.cmsTransform = some idRowT ∧ hIcc.premultiplied = true ∧
      (decodeImage id hIcc "").1 = .ok hIccResult ∧
      hIccResult.hasPremultipliedAlpha = false := by
  refine ⟨rfl, rfl, by decide, ?_⟩
  exact decodeImage_icc_clears_premul id hIcc "" idRowT hIccResult rfl (by decide)

/-- The `toRec709` matrix of any image decoded along the non-ICC path is
exactly `nclxMatrix` of the handle's NCLX profile. -/
theorem decodeImage_toRec709 (toLin : ℚ → ℚ) (h : HeifHandle) (pfx : String) (r : ImageData)
    (hcms : h.cmsTransform = none) (hok : (decodeImage toLin h pfx).1 = .ok r) :
    r.toRec709 = nclxMatrix h.nclx := by
  simp only [decodeImage] at hok
  split at hok
  · simp at hok
  · split at hok
    · simp at hok
    · split at hok
      · simp at hok
      · split at hok
        · rename_i heq
          rw [hcms] at heq
          simp at heq
        · simp only [Except.ok.injEq] at hok
          subst hok
          rfl

/-- C2 counterexample: decoding a BT.2020-tagged image attaches exactly the
matrix `RGBtoXYZ(embedded) * XYZtoRGB(rec709)` (the first half of the
claim), but applying that matrix to the embedded primary chromaticities
converted to XYZ does not yield the Rec.709 reference chromaticities, not
even within the generous tolerance 1/100: the matrix maps embedded-space
coordinates to Rec.709-space coordinates and preserves each color's
chromaticity, so the images of the BT.2020 primaries keep the BT.2020
chromaticities. -/
theorem nclx_gloss_counterexample :
    (decodeImage id hBt2020 "").1 = .ok bt2020Result ∧
      bt2020Result.toRec709 =
        m44Mul (rgbToXYZ (chromaOfNclx bt2020Nclx) 1) (xyzToRGB rec709Chroma 1) ∧
      ¬nclxGlossHolds bt2020Result.toRec709 bt2020Nclx (1 / 100) := by decide

/-- C2 amended: on the NCLX path, the attached matrix is the identity when
the primaries enum is BT.709 (and also whenever the embedded chromaticities
equal the Rec.709 reference values); otherwise it equals
`RGBtoXYZ(embedded) * XYZtoRGB(rec709)`, and composing it with the Rec.709
RGB-to-XYZ matrix recovers the embedded RGB-to-XYZ matrix — i.e. the matrix
re-expresses each color in Rec.709 coordinates while preserving its XYZ
(hence its chromaticity). -/
theorem nclx_matrix_correct (toLin : ℚ → ℚ) (h : HeifHandle) (pfx : String)
    (r : ImageData) (n : Nclx)
    (hcms : h.cmsTransform = none) (hn : h.nclx = some n)
    (hok : (decodeImage toLin h pfx).1 = .ok r) :
    (n.primariesTag = 1 → r.toRec709 = idM44) ∧
      (chromaOfNclx n = rec709Chroma → r.toRec709 = idM44) ∧
      (n.primariesTag ≠ 1 →
        r.toRec709 = m44Mul (rgbToXYZ (chromaOfNclx n) 1) (xyzToRGB rec709Chroma 1) ∧
        m44Mul r.toRec709 (rgbToXYZ rec709Chroma 1) = rgbToXYZ (chromaOfNclx n) 1) := by
  have hm := decodeImage_toRec709 toLin h pfx r hcms hok
  rw [hn] at hm
  unfold nclxMatrix at hm
  by_cases htag : n.primariesTag = 1
  · simp only [htag, ne_eq, not_true_eq_false, if_neg, ite_false, if_false] at hm
    refine ⟨fun _ => hm, fun _ => hm, fun hne => absurd htag hne⟩
  · simp only [ne_eq, htag, not_false_eq_true, ite_true, if_true] at hm
    refine ⟨fun h1 => absurd h1 htag, fun hch => ?_, fun _ => ⟨hm, ?_⟩⟩
    · rw [hm, hch, rgbToXYZ_cancel_rec709]
    · rw [hm, m44Mul_assoc, xyzToRGB_cancel_rec709, m44Mul_id]

/-- Witness for C2 at the BT.2020 handle. -/
theorem nclx_matrix_correct_witness :
    hBt2020.cmsTransform = none ∧ hBt2020.nclx = some bt2020Nclx ∧
      (decodeImage id hBt2020 "").1 = .ok bt2020Result ∧
      ((bt2020Nclx.primariesTag = 1 → bt2020Result.toRec709 = idM44) ∧
        (chromaOfNclx bt2020Nclx = rec709Chroma → bt2020Result.toRec709 = idM44) ∧
        (bt2020Nclx.primariesTag ≠ 1 →
          bt2020Result.toRec709 =
            m44Mul (rgbToXYZ (chromaOfNclx bt2020Nclx) 1) (xyzToRGB rec709Chroma 1) ∧
          m44Mul bt2020Result.toRec709 (rgbToXYZ rec709Chroma 1) =
            rgbToXYZ (chromaOfNclx bt2020Nclx) 1)) :=
  ⟨rfl, rfl, by decide,
    nclx_matrix_correct id hBt2020 "" bt2020Result bt2020Nclx rfl rfl (by decide)⟩

/-- The clamped neighbor indices of `resizeImage` always lie within
`[0, srcSize - 1]` (for a nonempty source and an in-range destination
pixel). -/
theorem nbrIdx_bounds (sz t dst : Nat) (hsz : 1 ≤ sz) (hdst : dst < t) :
    0 ≤ nbrIdx0 sz t dst ∧ nbrIdx0 sz t dst ≤ (sz : ℤ) - 1 ∧
      0 ≤ nbrIdx1 sz t dst ∧ nbrIdx1 sz t dst ≤ (sz : ℤ) - 1 := by
  have htq : (1 : ℚ) ≤ (t : ℚ) := by exact_mod_cast Nat.one_le_iff_ne_zero.mpr (by omega)
  have hszq : (1 : ℚ) ≤ (sz : ℚ) := by exact_mod_cast hsz
  have hdq : (dst : ℚ) + 1 ≤ (t : ℚ) := by exact_mod_cast hdst
  have hpos : (0 : ℚ) < (sz : ℚ) / (t : ℚ) := by positivity
  have hlt : srcCoord sz t dst < (sz : ℚ) := by
    unfold srcCoord
    have h2 : ((dst : ℚ) + 1 / 2) * ((sz : ℚ) / (t : ℚ)) < (t : ℚ) * ((sz : ℚ) / (t : ℚ)) := by
      apply mul_lt_mul_of_pos_right _ hpos
      linarith
    have h3 : (t : ℚ) * ((sz : ℚ) / (t : ℚ)) = (sz : ℚ) := by
      field_simp
    linarith
  have hfl : ⌊srcCoord sz t dst⌋ < (sz : ℤ) := by
    rw [Int.floor_lt]
    exact_mod_cast hlt
  have hszInt : (1 : ℤ) ≤ (sz : ℤ) := by exact_mod_cast hsz
  unfold nbrIdx1 nbrIdx0
  omega

/-- C3 counterexample: upscaling the 2×1 source `[0, 1]` to 4×1, destination
pixel 0 has source coordinate `-1/4`; the code clamps only the neighbor
indices, derives the weights from the unclamped coordinate, and extrapolates
to `-1/4`, while the claim's rule (coordinate clamped into `[0, srcSize-1]`,
weights in `[0, 1]`) yields `0` there — a weighted average of samples `0`
and `1` with weights in `[0, 1]` could never be negative. -/
theorem resample_unclamped_counterexample :
    ((resizeImage exAux (4, 1) "x").1.channels.map Channel.data) =
        [[-(1 / 4), 1 / 4, 3 / 4, 1]] ∧
      ((List.range 4).map fun dx => bilinearSampleSpec [0, 1] 2 1 4 1 dx 0) =
        [0, 1 / 4, 3 / 4, 1] ∧
      (-(1 / 4) : ℚ) ≠ 0 := by decide

/-- C3 amended: for every destination pixel of a resample, the source
coordinate is `(dst + 0.5) * scale - 0.5` (not clamped); the four neighbor
indices are clamped into `[0, srcSize - 1]`; and the output value is the
bilinear combination whose per-axis weights `(1 - wx1, wx1)` sum to one but
are derived from the unclamped coordinate (so they can leave `[0, 1]` at the
edges). -/
theorem bilinearSample_described (src : List ℚ) (w h tw th dstX dstY : Nat)
    (hw : 1 ≤ w) (hh : 1 ≤ h) (hx : dstX < tw) (hy : dstY < th) :
    bilinearSample src w h tw th dstX dstY = bilinearDescribed src w h tw th dstX dstY ∧
      (0 ≤ nbrIdx0 w tw dstX ∧ nbrIdx0 w tw dstX ≤ (w : ℤ) - 1 ∧
        0 ≤ nbrIdx1 w tw dstX ∧ nbrIdx1 w tw dstX ≤ (w : ℤ) - 1) ∧
      (0 ≤ nbrIdx0 h th dstY ∧ nbrIdx0 h th dstY ≤ (h : ℤ) - 1 ∧
        0 ≤ nbrIdx1 h th dstY ∧ nbrIdx1 h th dstY ≤ (h : ℤ) - 1) :=
  ⟨rfl, nbrIdx_bounds w tw dstX hw hx, nbrIdx_bounds h th dstY hh hy⟩

/-- Witness for C3 (amended) at the concrete 2×1 → 4×1 upscale, pixel 0. -/
theorem bilinearSample_described_witness :
    ((1 : Nat) ≤ 2 ∧ (1 : Nat) ≤ 1 ∧ (0 : Nat) < 4 ∧ (0 : Nat) < 1) ∧
      (bilinearSample [0, 1] 2 1 4 1 0 0 = bilinearDescribed [0, 1] 2 1 4 1 0 0 ∧
        (0 ≤ nbrIdx0 2 4 0 ∧ nbrIdx0 2 4 0 ≤ (2 : ℤ) - 1 ∧
          0 ≤ nbrIdx1 2 4 0 ∧ nbrIdx1 2 4 0 ≤ (2 : ℤ) - 1) ∧
        (0 ≤ nbrIdx0 1 1 0 ∧ nbrIdx0 1 1 0 ≤ (1 : ℤ) - 1 ∧
          0 ≤ nbrIdx1 1 1 0 ∧ nbrIdx1 1 1 0 ≤ (1 : ℤ) - 1)) :=
  ⟨⟨by decide, by decide, by decide, by decide⟩,
    bilinearSample_described [0, 1] 2 1 4 1 0 0 (by decide) (by decide) (by decide) (by decide)⟩

/-- C5 counterexample: a file whose only auxiliary layer has zero area makes
the whole load fail — the decode exception of the auxiliary layer propagates
out of the loop (there is no try/catch around the loop body), instead of the
layer being skipped with a warning. -/
theorem load_zero_area_aux_fails :
    loadModel id zFile "" = .err "Image has zero pixels." := by decide

/-- C5 amended: only handle- and type-acquisition failures of an auxiliary
entry are recovered: such an entry is skipped with a warning, the remaining
entries are processed, and the loop's outcome is exactly as if the entry were
absent. (Decode or resample failures of an auxiliary layer propagate and fail
the load, per the counterexample.) -/
theorem processAux_skips_failed_acquisition (toLin : ℚ → ℚ) (blocks : List ExifBlock)
    (selector : String) (numAux : Nat) (e : AuxEntry)
    (he : e.handleOk = false ∨ e.typeOk = false) (pre post : List AuxEntry)
    (main : ImageData) (fus : Nat) :
    processAux toLin blocks selector numAux (pre ++ e :: post) main fus =
      processAux toLin blocks selector numAux (pre ++ post) main fus := by
  induction pre generalizing main fus with
  | nil =>
    rcases he with h0 | h0
    · simp [processAux, h0]
    · by_cases h1 : e.handleOk = true
      · simp [processAux, h0, h1]
      · simp [processAux, h1]
  | cons a pre ih =>
    simp only [List.cons_append, processAux]
    split
    · exact ih _ _
    · split
      · exact ih _ _
      · split
        · exact ih _ _
        · split
          · rfl
          · split
            · split
              · rfl
              · exact ih _ _
              · exact ih _ _
            · exact ih _ _

/-- Witness for C5 (amended) at a concrete failed-acquisition entry. -/
theorem processAux_skips_failed_acquisition_witness :
    (badEntry.handleOk = false ∨ badEntry.typeOk = false) ∧
      processAux id [] "" 1 ([] ++ badEntry :: []) d9 0 = processAux id [] "" 1 ([] ++ []) d9 0 :=
  ⟨Or.inl rfl, processAux_skips_failed_acquisition id [] "" 1 badEntry (Or.inl rfl) [] [] d9 0⟩

/-- C6 (code bug): when the primary image's only EXIF block parses but holds
no maker-note entry, `exif_data_get_entry` returns a null pointer and the
unchecked call `isAppleMakernote(makerNote->data, makerNote->size)`
dereferences it, so a load with an Apple gain-map layer crashes instead of
completing with fusion skipped. By contrast, a file with no EXIF blocks at
all takes the claimed recovery path: the load completes with the gain-map
channels appended and zero fusions. -/
theorem findAppleMakerNote_null_deref :
    findAppleMakerNote [noMNBlock] = .crash ∧
      loadModel id mFile "" = .crash ∧
      loadModel id (⟨primaryHandle, [gmEntry], []⟩ : HeifFile) "" = .ok wMain 0 := by decide

/-- On a successful run, the auxiliary loop increments the fusion counter
exactly once per entry satisfying `fusionCond`. -/
theorem processAux_ok_fusions (toLin : ℚ → ℚ) (blocks : List ExifBlock)
    (selector : String) (numAux : Nat) (entries : List AuxEntry) :
    ∀ (main m : ImageData) (fus0 fus : Nat),
      processAux toLin blocks selector numAux entries main fus0 = .ok m fus →
      fus = fus0 + entries.countP (fusionCond blocks selector numAux) := by
  induction entries with
  | nil =>
    intro main m fus0 fus hok
    simp only [processAux, LoadOutcome.ok.injEq] at hok
    simp [hok.2]
  | cons e rest ih =>
    intro main m fus0 fus hok
    simp only [processAux] at hok
    split at hok
    · rename_i h1
      have h2 := ih _ _ _ _ hok
      simp_all [List.countP_cons, fusionCond]
    · split at hok
      · rename_i h1 h2
        have h3 := ih _ _ _ _ hok
        simp_all [List.countP_cons, fusionCond]
      · split at hok
        · rename_i h1 h2 h3
          have h4 := ih _ _ _ _ hok
          simp_all [List.countP_cons, fusionCond]
        · split at hok
          · simp at hok
          · split at hok
            · split at hok
              · simp at hok
              · rename_i h1 h2 h3 hdec hmark hmn
                have h4 := ih _ _ _ _ hok
                simp_all [List.countP_cons, fusionCond]
                omega
              · rename_i h1 h2 h3 hdec hmark hmn
                have h4 := ih _ _ _ _ hok
                simp_all [List.countP_cons, fusionCond]
            · rename_i h1 h2 h3 hdec hmark
              have h4 := ih _ _ _ _ hok
              simp_all [List.countP_cons, fusionCond]

/-- C1 counterexample: a file with an Apple gain-map auxiliary layer and
extractable maker-note metadata, loaded with the selector "depth": the
claim's right-hand side holds, yet the layer is filtered out by the channel
selector, so the load succeeds with zero fusions and without the gain-map
channels. -/
theorem load_fusion_iff_counterexample :
    fusionsOf (loadModel id wFile "depth") = some 0 ∧
      channelsOf (loadModel id wFile "depth") = some 3 ∧
      fusionClaimRHS wFile := by decide

/-- C1 amended: for every successful load, gain-map fusion is invoked if and
only if some auxiliary entry passes handle and type acquisition, its
normalized colon-free name matches the channel selector and contains both
"apple" and "hdrgainmap", and Apple maker-note extraction from the primary
image's EXIF blocks succeeds. -/
theorem load_fusion_iff (toLin : ℚ → ℚ) (f : HeifFile) (sel : String)
    (m : ImageData) (fus : Nat)
    (hok : loadModel toLin f sel = .ok m fus) :
    (0 < fus ↔ ∃ e ∈ f.auxEntries,
      e.handleOk = true ∧ e.typeOk = true ∧
      matchesFuzzy (normalizeAuxName e.auxType f.auxEntries.length) sel = true ∧
      containsSub (normalizeAuxName e.auxType f.auxEntries.length) "apple" = true ∧
      containsSub (normalizeAuxName e.auxType f.auxEntries.length) "hdrgainmap" = true ∧
      findAppleMakerNote f.exifBlocks = .found) := by
  unfold loadModel at hok
  split at hok
  · simp at hok
  · have hc := processAux_ok_fusions toLin f.exifBlocks sel f.auxEntries.length
      f.auxEntries _ _ _ _ hok
    rw [hc]
    simp only [Nat.zero_add]
    rw [List.countP_pos_iff]
    simp only [fusionCond, Bool.and_eq_true, decide_eq_true_eq, and_assoc]

/-- Witness for C1 (amended): a load of `wFile` with the empty selector
fuses exactly once, and the iff holds at it. -/
theorem load_fusion_iff_witness :
    loadModel id wFile "" = .ok wMain 1 ∧
      ((0 : Nat) < 1 ↔ ∃ e ∈ wFile.auxEntries,
        e.handleOk = true ∧ e.typeOk = true ∧
        matchesFuzzy (normalizeAuxName e.auxType wFile.auxEntries.length) "" = true ∧
        containsSub (normalizeAuxName e.auxType wFile.auxEntries.length) "apple" = true ∧
        containsSub (normalizeAuxName e.auxType wFile.auxEntries.length) "hdrgainmap" = true ∧
        findAppleMakerNote wFile.exifBlocks = .found) :=
  ⟨by decide, load_fusion_iff id wFile "" wMain 1 (by decide)⟩

/-- Witness for C8 at bit depth 8. -/
theorem normalizeSample_endpoints_witness :
    (8 : Nat) ≤ 16 ∧ 1 ≤ (8 : Nat) ∧
      (normalizeSample 8 ((2 : ℚ) ^ (8 : Nat) - 1) = 1 ∧ normalizeSample 8 0 = 0) :=
  ⟨by decide, by decide, normalizeSample_endpoints 8 (by decide) (by decide)⟩

end ClaimProofs

end HeifSpec
